import Mathlib

/-!
Verification of the scheduling core of the reserva-despachos application
(`src/src/App.jsx` and `src/unnamed/part_000`): the interval-overlap test,
slot enumeration, the booking-submission service, the day-snapshot fetch
and realtime refresh, and the ICS calendar export.

Times are modelled as integers (epoch seconds for absolute instants,
minutes since local midnight for wall-clock slot times).
-/

/-- Fixed slot granularity, `SLOT_MINUTES = 30` in the source. -/
def SLOT_MINUTES : Nat := 30

/-- A persisted booking record (`bookings` table row): `id`, `room`,
`person`, `purpose`, `start`/`end` absolute instants (epoch seconds),
mirroring the payload built in `upsertBooking`. -/
structure Booking where
  id : String
  room : Nat
  person : String
  purpose : String
  start : Int
  «end» : Int
  deriving Repr, DecidableEq

/-- `overlaps(aStart, aEnd, bStart, bEnd)` from `part_000`:
`aStart < bEnd && bStart < aEnd`. -/
def overlaps (aStart aEnd bStart bEnd : Int) : Bool :=
  aStart < bEnd && bStart < aEnd

/-- The loop body of `enumerateSlots`: `while (t < end) { slots.push(t); t = addMinutes(t, SLOT_MINUTES); }`.
`t` and `endM` are minutes since local midnight.  The loop advances `t` by
30 each iteration, so it runs fewer than `endM` times whenever it starts
at `t ≥ 0`; the structural `fuel` argument is instantiated with `endM`,
which `enumerateSlotsAux_fuel` below shows is enough. -/
def enumerateSlotsAux (fuel t endM : Nat) : List Nat :=
  match fuel with
  | 0 => []
  | fuel + 1 =>
    if t < endM then t :: enumerateSlotsAux fuel (t + SLOT_MINUTES) endM
    else []

/-- `enumerateSlots(day, startHour, endHour)` from `part_000`, the slot
start times as minutes since local midnight: starts at `startHour:00`,
steps by `SLOT_MINUTES`, stops strictly before `endHour:00`. -/
def enumerateSlots (startHour endHour : Nat) : List Nat :=
  enumerateSlotsAux (endHour * 60) (startHour * 60) (endHour * 60)

/-- `String(n).padStart(2, "0")`, the helper `pad` of the source. -/
def pad (n : Nat) : String :=
  String.mk (List.replicate (2 - (Nat.repr n).length) '0') ++ Nat.repr n

/-- `timeOptions` from `BookingForm`: labels `HH:mm` for `h` from
`startHour` while `h < endHour`, `m` from `0` while `m < 60` step
`SLOT_MINUTES`. -/
def timeOptions (startHour endHour : Nat) : List String :=
  (List.range' startHour (endHour - startHour)).flatMap fun h =>
    (List.range (60 / SLOT_MINUTES)).map fun k =>
      pad h ++ ":" ++ pad (SLOT_MINUTES * k)

/-! ## Booking submission (`addOrUpdateBooking`) -/

/-- The typed failures of a submission: the three toast-and-return-false
paths of `addOrUpdateBooking` (missing name / past booking, client-side
conflict, failed `upsert`). -/
inductive SubmitError where
  | validationError
  | conflictError
  | repositoryError
  deriving Repr, DecidableEq

/-- Outcome of one `addOrUpdateBooking` call: the returned result, whether
`upsertBooking` was reached, and the `bookings` state after the call. -/
structure SubmitOutcome where
  result : Except SubmitError Unit
  repoCalled : Bool
  cache : List Booking
  deriving Repr

/-- JS `String.prototype.trim()`: strip whitespace from both ends. -/
def trimChars (s : List Char) : List Char :=
  ((s.dropWhile (·.isWhitespace)).reverse.dropWhile (·.isWhitespace)).reverse

/-- The client-side conflict test inside `addOrUpdateBooking`
(`part_000` lines 178–183): some existing booking with a different `id`,
the same `room`, and overlapping `[start, end)`. -/
def conflictCheck (dayBookings : List Booking) (newB : Booking) : Bool :=
  dayBookings.any fun b =>
    b.id != newB.id && b.room == newB.room &&
      overlaps b.start b.«end» newB.start newB.«end»

/-- `addOrUpdateBooking(newB)`: require-name check, past-time check
(`isBefore(e, new Date())`, strict), client conflict check, then
`upsertBooking` + refetch.  `upsertOk` is whether the `upsert` call
succeeds; `refetched` is the day list the post-upsert refetch returns. -/
def addOrUpdateBooking (requireName allowPast : Bool) (now : Int)
    (dayBookings : List Booking) (newB : Booking)
    (upsertOk : Bool) (refetched : List Booking) : SubmitOutcome :=
  if requireName && (trimChars newB.person.data).isEmpty then
    ⟨.error .validationError, false, dayBookings⟩
  else if !allowPast && newB.«end» < now then
    ⟨.error .validationError, false, dayBookings⟩
  else if conflictCheck dayBookings newB then
    ⟨.error .conflictError, false, dayBookings⟩
  else if upsertOk then
    ⟨.ok (), true, refetched⟩
  else
    ⟨.error .repositoryError, true, dayBookings⟩

/-! ## Day-snapshot fetch and reconciliation -/

/-- `fetchBookingsForDay`: on a Supabase `error` it logs, toasts and
`return []`; otherwise it returns the rows of the requested day. -/
def fetchBookingsForDay (errorOccurred : Bool) (rows : List Booking) : List Booking :=
  if errorOccurred then [] else rows

/-- The day-load / realtime effect body:
`setBookings(await fetchBookingsForDay(currentDay))` — the fetch result
replaces the visible snapshot unconditionally. -/
def dayLoadApply (_prev fetchResult : List Booking) : List Booking :=
  fetchResult

/-- One completed day-snapshot fetch.  `seq` is the issue-order index used
to state the reconciler claims; the source keeps no such tag. -/
structure FetchCompletion where
  seq : Nat
  result : List Booking
  deriving Repr, DecidableEq

/-- The snapshot after a list of fetch completions, in completion order:
each completion runs `setBookings(list)` with no sequence guard, so each
one overwrites the snapshot. -/
def applyCompletions (init : List Booking) (cs : List FetchCompletion) : List Booking :=
  cs.foldl (fun _ c => c.result) init

/-! ## ICS calendar export -/

/-- Global single-character replacement, the semantics of
`String.replace(/c/g, repl)` for a one-character pattern. -/
def replaceChar (target : Char) (repl : List Char) : List Char → List Char
  | [] => []
  | c :: cs => (if c = target then repl else [c]) ++ replaceChar target repl cs

/-- `escapeICS(text)`: `\` → `\\`, then newline → `\n`, then `,` → `\,`,
then `;` → `\;`, applied in that order. -/
def escapeICS (text : String) : String :=
  String.mk
    (replaceChar ';' ['\\', ';']
      (replaceChar ',' ['\\', ',']
        (replaceChar '\n' ['\\', 'n']
          (replaceChar '\\' ['\\', '\\'] text.data))))

/-- A UTC datetime as the JS `Date` getters expose it: `month` is
0-based (`getUTCMonth`), the other fields as usual. -/
structure UTCTime where
  year : Nat
  month : Nat
  day : Nat
  hour : Nat
  minute : Nat
  second : Nat
  deriving Repr, DecidableEq

/-- `toICSDate(dt)`: `getUTCFullYear + pad(getUTCMonth()+1) + pad(getUTCDate())
+ "T" + pad(hours) + pad(minutes) + pad(seconds) + "Z"`. -/
def toICSDate (dt : UTCTime) : String :=
  Nat.repr dt.year ++ pad (dt.month + 1) ++ pad dt.day ++ "T" ++
    pad dt.hour ++ pad dt.minute ++ pad dt.second ++ "Z"

/-- The `lines` array of `generateICS`.  `uid` stands for the fresh
`uuidv4()` and `stamp` for the `new Date()` taken at generation time. -/
def icsLines (title description location : String) (start «end» : UTCTime)
    (uid : String) (stamp : UTCTime) : List String :=
  [ "BEGIN:VCALENDAR",
    "VERSION:2.0",
    "PRODID:-//ReservaDespachos//v1//ES",
    "CALSCALE:GREGORIAN",
    "METHOD:PUBLISH",
    "BEGIN:VEVENT",
    "UID:" ++ uid,
    "DTSTAMP:" ++ toICSDate stamp,
    "DTSTART:" ++ toICSDate start,
    "DTEND:" ++ toICSDate «end»,
    "SUMMARY:" ++ escapeICS title,
    "DESCRIPTION:" ++ escapeICS description,
    "LOCATION:" ++ escapeICS location,
    "END:VEVENT",
    "END:VCALENDAR" ]

/-- `generateICS`: the lines joined with CRLF. -/
def generateICS (title description location : String) (start «end» : UTCTime)
    (uid : String) (stamp : UTCTime) : String :=
  String.intercalate "\r\n" (icsLines title description location start «end» uid stamp)

/-- The per-character escape map as §4.6 of the spec words it: backslash,
comma, semicolon and newline each receive their escape sequence, every
other character passes through unchanged.  Stated from the spec, to be
compared with `escapeICS`. -/
def escCharSpec (c : Char) : List Char :=
  if c = '\\' then ['\\', '\\']
  else if c = '\n' then ['\\', 'n']
  else if c = ',' then ['\\', ',']
  else if c = ';' then ['\\', ';']
  else [c]

/-! ## Helper lemmas for the slot enumeration loop -/

/-- Once the loop variable reaches the bound, the loop yields nothing,
regardless of the fuel. -/
theorem enumerateSlotsAux_stop {t endM : Nat} (h : endM ≤ t) :
    ∀ fuel, enumerateSlotsAux fuel t endM = [] := by
  intro fuel
  cases fuel with
  | zero => rfl
  | succ n =>
    unfold enumerateSlotsAux
    rw [if_neg (by omega)]

/-- Any fuel of at least `endM - t` computes the same list: the fuel
`endM` used by `enumerateSlots` is irrelevant slack, so the embedding
agrees with the unbounded `while` loop of the source. -/
theorem enumerateSlotsAux_fuel :
    ∀ f₁ f₂ t endM, endM - t ≤ f₁ → endM - t ≤ f₂ →
      enumerateSlotsAux f₁ t endM = enumerateSlotsAux f₂ t endM := by
  intro f₁
  induction f₁ with
  | zero =>
    intro f₂ t endM h1 h2
    rw [enumerateSlotsAux_stop (by omega) 0, enumerateSlotsAux_stop (by omega) f₂]
  | succ n ih =>
    intro f₂ t endM h1 h2
    by_cases hlt : t < endM
    · cases f₂ with
      | zero => omega
      | succ m =>
        unfold enumerateSlotsAux
        rw [if_pos hlt, if_pos hlt]
        have hstep : endM - (t + SLOT_MINUTES) ≤ n := by
          simp only [SLOT_MINUTES]; omega
        have hstep2 : endM - (t + SLOT_MINUTES) ≤ m := by
          simp only [SLOT_MINUTES]; omega
        rw [ih m (t + SLOT_MINUTES) endM hstep hstep2]
    · rw [enumerateSlotsAux_stop (by omega) (n + 1), enumerateSlotsAux_stop (by omega) f₂]

/-- Every element produced by the loop lies in `[t, endM)`. -/
theorem enumerateSlotsAux_mem {x : Nat} :
    ∀ fuel t endM, x ∈ enumerateSlotsAux fuel t endM → t ≤ x ∧ x < endM := by
  intro fuel
  induction fuel with
  | zero => intro t endM h; simp [enumerateSlotsAux] at h
  | succ n ih =>
    intro t endM h
    unfold enumerateSlotsAux at h
    by_cases hlt : t < endM
    · rw [if_pos hlt] at h
      rcases List.mem_cons.mp h with h | h
      · omega
      · have := ih (t + SLOT_MINUTES) endM h
        simp only [SLOT_MINUTES] at this
        omega
    · rw [if_neg hlt] at h
      simp at h

/-- The first element the loop produces is the starting value, when the
loop runs at all. -/
theorem enumerateSlotsAux_head (fuel t endM : Nat) (hf : 0 < fuel) (h : t < endM) :
    (enumerateSlotsAux fuel t endM).head? = some t := by
  cases fuel with
  | zero => omega
  | succ n =>
    unfold enumerateSlotsAux
    rw [if_pos h]
    rfl

/-- Consecutive elements of the loop output differ by `SLOT_MINUTES`. -/
theorem enumerateSlotsAux_step :
    ∀ fuel t endM i x y, (enumerateSlotsAux fuel t endM)[i]? = some x →
      (enumerateSlotsAux fuel t endM)[i + 1]? = some y → y = x + SLOT_MINUTES := by
  intro fuel
  induction fuel with
  | zero => intro t endM i x y hx _; simp [enumerateSlotsAux] at hx
  | succ n ih =>
    intro t endM i x y hx hy
    unfold enumerateSlotsAux at hx hy
    by_cases hlt : t < endM
    · rw [if_pos hlt] at hx hy
      cases i with
      | zero =>
        rw [List.getElem?_cons_zero] at hx
        rw [List.getElem?_cons_succ] at hy
        injection hx with hx
        cases n with
        | zero => simp [enumerateSlotsAux] at hy
        | succ m =>
          unfold enumerateSlotsAux at hy
          by_cases hlt2 : t + SLOT_MINUTES < endM
          · rw [if_pos hlt2, List.getElem?_cons_zero] at hy
            injection hy with hy
            omega
          · rw [if_neg hlt2] at hy
            simp at hy
      | succ j =>
        rw [List.getElem?_cons_succ] at hx hy
        exact ih (t + SLOT_MINUTES) endM j x y hx hy
    · rw [if_neg hlt] at hx
      simp at hx

/-- `enumerateSlots` yields the empty list exactly on a degenerate window. -/
theorem enumerateSlots_empty_iff_aux (startHour endHour : Nat) :
    enumerateSlots startHour endHour = [] ↔ endHour ≤ startHour := by
  constructor
  · intro h
    by_contra hlt
    have h1 : startHour * 60 < endHour * 60 := by omega
    have h2 : 0 < endHour * 60 := by omega
    have := enumerateSlotsAux_head (endHour * 60) (startHour * 60) (endHour * 60) h2 h1
    rw [enumerateSlots] at h
    rw [h] at this
    simp at this
  · intro h
    exact enumerateSlotsAux_stop (by omega) _

/-- Claim C6: `enumerateSlots` for an 8:00–22:00 window at the fixed
30-minute granularity yields exactly 28 slots, the first at 08:00
(minute 480), the last at 21:30 (minute 1290), none at 22:00 (minute
1320); in general the first element is `startHour:00`, consecutive
elements differ by `SLOT_MINUTES`, and every element is strictly below
`endHour:00`. -/
theorem enumerateSlots_window_properties :
    (enumerateSlots 8 22).length = 28 ∧
    (enumerateSlots 8 22).head? = some (8 * 60) ∧
    (enumerateSlots 8 22).getLast? = some (21 * 60 + 30) ∧
    (22 * 60) ∉ enumerateSlots 8 22 ∧
    (∀ s e, s < e → (enumerateSlots s e).head? = some (s * 60)) ∧
    (∀ s e i x y, (enumerateSlots s e)[i]? = some x →
      (enumerateSlots s e)[i + 1]? = some y → y = x + SLOT_MINUTES) ∧
    (∀ s e x, x ∈ enumerateSlots s e → s * 60 ≤ x ∧ x < e * 60) := by
  refine ⟨by decide, by decide, by decide, by decide, ?_, ?_, ?_⟩
  · intro s e h
    exact enumerateSlotsAux_head (e * 60) (s * 60) (e * 60) (by omega) (by omega)
  · intro s e i x y hx hy
    exact enumerateSlotsAux_step (e * 60) (s * 60) (e * 60) i x y hx hy
  · intro s e x hx
    exact enumerateSlotsAux_mem (e * 60) (s * 60) (e * 60) hx

/-- Witness for `enumerateSlots_window_properties`, instantiating its
general parts on the 8:00–22:00 window. -/
theorem enumerateSlots_window_properties_witness :
    (enumerateSlots 8 22).head? = some (8 * 60) ∧
    (510 : Nat) = 480 + SLOT_MINUTES ∧
    (8 * 60 ≤ 1290 ∧ (1290 : Nat) < 22 * 60) :=
  ⟨enumerateSlots_window_properties.2.2.2.2.1 8 22 (by decide),
   enumerateSlots_window_properties.2.2.2.2.2.1 8 22 0 480 510 (by decide) (by decide),
   enumerateSlots_window_properties.2.2.2.2.2.2 8 22 1290 (by decide)⟩

/-- Claim C7 counterexample: at `endHour ≤ startHour` the source
enumeration returns the ordinary empty list — there is no error branch
and no `InvalidRangeError` anywhere in the source, and the granularity
is the fixed constant `SLOT_MINUTES`, not a validated parameter. -/
theorem enumerateSlots_no_error_counterexample :
    enumerateSlots 22 8 = [] ∧ enumerateSlots 8 8 = [] := by
  exact ⟨by decide, by decide⟩

/-- Claim C7 (amended): `enumerateSlots` signals no error; it totally
returns a list, which is empty exactly when `endHour ≤ startHour`. -/
theorem enumerateSlots_empty_iff_degenerate :
    ∀ startHour endHour, enumerateSlots startHour endHour = [] ↔ endHour ≤ startHour :=
  enumerateSlots_empty_iff_aux

/-- Witness for `enumerateSlots_empty_iff_degenerate` on the inverted
window 22–8. -/
theorem enumerateSlots_empty_iff_degenerate_witness :
    enumerateSlots 22 8 = [] :=
  (enumerateSlots_empty_iff_degenerate 22 8).mpr (by decide)

/-- Claim C10: slot enumeration is total with no error branch; on a
degenerate operating window (`endHour ≤ startHour`) both the slot list
and the start-time options offered by the form are empty. -/
theorem enumerateSlots_degenerate_total :
    ∀ startHour endHour, endHour ≤ startHour →
      enumerateSlots startHour endHour = [] ∧ timeOptions startHour endHour = [] := by
  intro s e h
  constructor
  · exact enumerateSlotsAux_stop (by omega) _
  · unfold timeOptions
    have : e - s = 0 := by omega
    rw [this]
    rfl

/-- Witness for `enumerateSlots_degenerate_total` on the inverted window
22–8. -/
theorem enumerateSlots_degenerate_total_witness :
    enumerateSlots 22 8 = [] ∧ timeOptions 22 8 = [] :=
  enumerateSlots_degenerate_total 22 8 (by decide)

/-! ## Conflict detection -/

/-- Claim C2: the conflict test is exactly `aStart < bEnd AND bStart < aEnd`
(half-open semantics), it is symmetric in the two intervals, and adjacent
intervals (`A.end = B.start`) never conflict. -/
theorem overlaps_halfOpen_symm_adjacent :
    ∀ aStart aEnd bStart bEnd : Int,
      (overlaps aStart aEnd bStart bEnd = true ↔ (aStart < bEnd ∧ bStart < aEnd)) ∧
      overlaps aStart aEnd bStart bEnd = overlaps bStart bEnd aStart aEnd ∧
      overlaps aStart aEnd aEnd bEnd = false := by
  intro aS aE bS bE
  refine ⟨?_, ?_, ?_⟩
  · simp [overlaps]
  · simp [overlaps, Bool.and_comm]
  · simp [overlaps]

/-- Claim C5: the conflict check first drops every booking carrying the
identifier of the candidate, so editing a booking never conflicts with
its own prior instance; if everything that overlaps the candidate in its
room carries the same identifier, the check passes. -/
theorem conflictCheck_excludes_own_id :
    (∀ dayBookings newB, conflictCheck dayBookings newB =
      conflictCheck (dayBookings.filter fun b => b.id != newB.id) newB) ∧
    (∀ dayBookings newB,
      (∀ b ∈ dayBookings, b.room = newB.room →
        overlaps b.start b.«end» newB.start newB.«end» = true → b.id = newB.id) →
      conflictCheck dayBookings newB = false) := by
  constructor
  · intro db nb
    induction db with
    | nil => rfl
    | cons b t ih =>
      by_cases h : b.id = nb.id
      · simp [conflictCheck, List.filter_cons, h] at ih ⊢
        exact ih
      · simp [conflictCheck, List.filter_cons, bne, h] at ih ⊢
        rw [ih]
  · intro db nb h
    rw [Bool.eq_false_iff]
    intro hc
    rw [conflictCheck, List.any_eq_true] at hc
    obtain ⟨b, hb, hp⟩ := hc
    simp only [Bool.and_eq_true, bne_iff_ne, beq_iff_eq] at hp
    exact hp.1.1 (h b hb hp.1.2 hp.2)

/-- Witness for `conflictCheck_excludes_own_id`: a candidate that overlaps
only its own prior instance (same id, same room, overlapping interval)
passes the conflict check. -/
theorem conflictCheck_excludes_own_id_witness :
    conflictCheck [⟨"b1", 0, "Ana", "", 100, 200⟩] ⟨"b1", 0, "Ana", "", 150, 250⟩ = false :=
  conflictCheck_excludes_own_id.2 [⟨"b1", 0, "Ana", "", 100, 200⟩]
    ⟨"b1", 0, "Ana", "", 150, 250⟩ (by decide)

/-! ## Booking submission -/

/-- Claim C3: `addOrUpdateBooking` always ends in a success or exactly one
typed failure; validation and conflict failures return before the
repository is called; every failure leaves the cached day list unchanged;
and a booking ending at 2024-06-01T00:00:00Z (epoch 1717200000) when now
is 2024-06-02T00:00:00Z (epoch 1717286400) with allow-past false fails
with a validation error before any repository call. -/
theorem addOrUpdateBooking_typed_outcomes :
    (∀ rn ap now db nb ok rf,
      (addOrUpdateBooking rn ap now db nb ok rf).result = .ok () ∨
      ∃ err, (addOrUpdateBooking rn ap now db nb ok rf).result = .error err) ∧
    (∀ rn ap now db nb ok rf,
      ((addOrUpdateBooking rn ap now db nb ok rf).result = .error .validationError ∨
       (addOrUpdateBooking rn ap now db nb ok rf).result = .error .conflictError) →
      (addOrUpdateBooking rn ap now db nb ok rf).repoCalled = false) ∧
    (∀ rn ap now db nb ok rf err,
      (addOrUpdateBooking rn ap now db nb ok rf).result = .error err →
      (addOrUpdateBooking rn ap now db nb ok rf).cache = db) ∧
    addOrUpdateBooking true false 1717286400 []
        ⟨"id1", 0, "Diego", "", 1717196400, 1717200000⟩ true [] =
      ⟨.error .validationError, false, []⟩ := by
  refine ⟨?_, ?_, ?_, rfl⟩
  · intro rn ap now db nb ok rf
    unfold addOrUpdateBooking
    split
    · exact Or.inr ⟨_, rfl⟩
    · split
      · exact Or.inr ⟨_, rfl⟩
      · split
        · exact Or.inr ⟨_, rfl⟩
        · split
          · exact Or.inl rfl
          · exact Or.inr ⟨_, rfl⟩
  · intro rn ap now db nb ok rf h
    by_cases h1 : (rn && (trimChars nb.person.data).isEmpty) = true
    · simp [addOrUpdateBooking, h1]
    · by_cases h2 : (!ap && decide (nb.«end» < now)) = true
      · simp [addOrUpdateBooking, h1, h2]
      · by_cases h3 : conflictCheck db nb = true
        · simp [addOrUpdateBooking, h1, h2, h3]
        · by_cases h4 : ok = true
          · simp [addOrUpdateBooking, h1, h2, h3, h4] at h
          · simp [addOrUpdateBooking, h1, h2, h3, h4] at h
  · intro rn ap now db nb ok rf err h
    by_cases h1 : (rn && (trimChars nb.person.data).isEmpty) = true
    · simp [addOrUpdateBooking, h1]
    · by_cases h2 : (!ap && decide (nb.«end» < now)) = true
      · simp [addOrUpdateBooking, h1, h2]
      · by_cases h3 : conflictCheck db nb = true
        · simp [addOrUpdateBooking, h1, h2, h3]
        · by_cases h4 : ok = true
          · simp [addOrUpdateBooking, h1, h2, h3, h4] at h
          · simp [addOrUpdateBooking, h1, h2, h3, h4]

/-- Witness for `addOrUpdateBooking_typed_outcomes`: the past-ending
submission described by the claim produces a typed failure, reaches no
repository call, and leaves the cache unchanged. -/
theorem addOrUpdateBooking_typed_outcomes_witness :
    (addOrUpdateBooking true false 1717286400 []
        ⟨"id1", 0, "Diego", "", 1717196400, 1717200000⟩ true []).repoCalled = false ∧
    (addOrUpdateBooking true false 1717286400 []
        ⟨"id1", 0, "Diego", "", 1717196400, 1717200000⟩ true []).cache = [] :=
  ⟨addOrUpdateBooking_typed_outcomes.2.1 true false 1717286400 []
      ⟨"id1", 0, "Diego", "", 1717196400, 1717200000⟩ true [] (Or.inl rfl),
   addOrUpdateBooking_typed_outcomes.2.2.1 true false 1717286400 []
      ⟨"id1", 0, "Diego", "", 1717196400, 1717200000⟩ true [] .validationError rfl⟩

/-! ## Reconciliation claims -/

/-- Claim C1 counterexample: the realtime effect keeps no sequence
numbers — each completing fetch overwrites the snapshot.  With fetches
issued as 1, 2, 3 completing in the order 2, 3, 1, the final snapshot is
the result of fetch 1 (not of fetch 3), and the result of fetch 1 is
applied. -/
theorem reconciler_stale_overwrite_counterexample :
    applyCompletions []
        [⟨2, [⟨"b2", 1, "B", "", 2, 3⟩]⟩,
         ⟨3, [⟨"b3", 2, "C", "", 4, 5⟩]⟩,
         ⟨1, [⟨"b1", 0, "A", "", 0, 1⟩]⟩] = [⟨"b1", 0, "A", "", 0, 1⟩] ∧
    ([⟨"b1", 0, "A", "", 0, 1⟩] : List Booking) ≠ [⟨"b3", 2, "C", "", 4, 5⟩] ∧
    [⟨"b1", 0, "A", "", 0, 1⟩] ∈
      ([⟨2, [⟨"b2", 1, "B", "", 2, 3⟩]⟩,
        ⟨3, [⟨"b3", 2, "C", "", 4, 5⟩]⟩,
        ⟨1, [⟨"b1", 0, "A", "", 0, 1⟩]⟩] : List FetchCompletion).map FetchCompletion.result := by
  refine ⟨rfl, by decide, by decide⟩

/-- Claim C1 (amended): fetch completions are applied unconditionally, so
the visible snapshot always equals the result of whichever fetch
completed last, regardless of issue order. -/
theorem reconciler_last_completion_wins :
    ∀ (init : List Booking) (cs : List FetchCompletion) (c : FetchCompletion),
      applyCompletions init (cs ++ [c]) = c.result := by
  intro init cs c
  simp [applyCompletions, List.foldl_append]

/-- Claim C4 counterexample: a failed day fetch returns the empty list
and the effect installs it, replacing a nonempty previously reconciled
snapshot with an empty day. -/
theorem failed_fetch_empties_snapshot_counterexample :
    dayLoadApply [⟨"b1", 0, "A", "", 0, 1⟩]
        (fetchBookingsForDay true [⟨"b1", 0, "A", "", 0, 1⟩]) = [] ∧
    ([] : List Booking) ≠ [⟨"b1", 0, "A", "", 0, 1⟩] := by
  exact ⟨rfl, by decide⟩

/-- Claim C4 (amended): on a transport/storage failure
`fetchBookingsForDay` returns the empty list instead of an error, and the
day-load effect replaces the visible snapshot with that empty day. -/
theorem failed_fetch_yields_empty_snapshot :
    ∀ prev rows, dayLoadApply prev (fetchBookingsForDay true rows) = [] := by
  intro prev rows
  rfl

/-! ## ICS export claims -/

/-- Decimal representations of numbers below 100 take one or two digits. -/
theorem repr_length_lt_100 : ∀ n ∈ List.range 100, (Nat.repr n).length ≤ 2 := by
  decide

/-- `pad` always yields exactly two characters on inputs below 100. -/
theorem pad_length {n : Nat} (h : n < 100) : (pad n).length = 2 := by
  have hle := repr_length_lt_100 n (List.mem_range.mpr h)
  unfold pad
  rw [String.length_append]
  have hmk : (String.mk (List.replicate (2 - (Nat.repr n).length) '0')).length
      = 2 - (Nat.repr n).length := by
    show (List.replicate (2 - (Nat.repr n).length) '0').length = _
    exact List.length_replicate _ _
  omega

/-- `toICSDate` output length: the year in decimal followed by the twelve
characters `MMDDThhmmssZ`, for in-range date components. -/
theorem toICSDate_length (dt : UTCTime) (h1 : dt.month + 1 < 100) (h2 : dt.day < 100)
    (h3 : dt.hour < 100) (h4 : dt.minute < 100) (h5 : dt.second < 100) :
    (toICSDate dt).length = (Nat.repr dt.year).length + 12 := by
  unfold toICSDate
  rw [String.length_append, String.length_append, String.length_append,
    String.length_append, String.length_append, String.length_append,
    String.length_append]
  rw [pad_length h1, pad_length h2, pad_length h3, pad_length h4, pad_length h5]
  rfl

/-- Claim C8: the booking 2024-06-03T07:00:00Z → 2024-06-03T08:00:00Z
renders exactly as `DTSTART:20240603T070000Z` / `DTEND:20240603T080000Z`
in the exported document; in general the `DTSTART`/`DTEND` lines are the
start/end rendered by the UTC formatter `toICSDate`, in the
`YYYYMMDDThhmmssZ` shape (year digits plus the 12 characters
`MMDDThhmmssZ`). -/
theorem ics_dtstart_dtend_format :
    toICSDate ⟨2024, 5, 3, 7, 0, 0⟩ = "20240603T070000Z" ∧
    toICSDate ⟨2024, 5, 3, 8, 0, 0⟩ = "20240603T080000Z" ∧
    (∀ title description location uid stamp,
      "DTSTART:20240603T070000Z" ∈
        icsLines title description location ⟨2024, 5, 3, 7, 0, 0⟩ ⟨2024, 5, 3, 8, 0, 0⟩ uid stamp ∧
      "DTEND:20240603T080000Z" ∈
        icsLines title description location ⟨2024, 5, 3, 7, 0, 0⟩ ⟨2024, 5, 3, 8, 0, 0⟩ uid stamp) ∧
    (∀ title description location start «end» uid stamp,
      "DTSTART:" ++ toICSDate start ∈ icsLines title description location start «end» uid stamp ∧
      "DTEND:" ++ toICSDate «end» ∈ icsLines title description location start «end» uid stamp) ∧
    (∀ dt : UTCTime, dt.month + 1 < 100 → dt.day < 100 → dt.hour < 100 →
      dt.minute < 100 → dt.second < 100 →
      (toICSDate dt).length = (Nat.repr dt.year).length + 12) := by
  refine ⟨by decide, by decide, ?_, ?_, ?_⟩
  · intro title description location uid stamp
    constructor
    · have hmem : "DTSTART:" ++ toICSDate ⟨2024, 5, 3, 7, 0, 0⟩ ∈
          icsLines title description location ⟨2024, 5, 3, 7, 0, 0⟩ ⟨2024, 5, 3, 8, 0, 0⟩ uid stamp := by
        simp [icsLines]
      have heq : "DTSTART:" ++ toICSDate ⟨2024, 5, 3, 7, 0, 0⟩ = "DTSTART:20240603T070000Z" := by
        decide
      rwa [heq] at hmem
    · have hmem : "DTEND:" ++ toICSDate ⟨2024, 5, 3, 8, 0, 0⟩ ∈
          icsLines title description location ⟨2024, 5, 3, 7, 0, 0⟩ ⟨2024, 5, 3, 8, 0, 0⟩ uid stamp := by
        simp [icsLines]
      have heq : "DTEND:" ++ toICSDate ⟨2024, 5, 3, 8, 0, 0⟩ = "DTEND:20240603T080000Z" := by
        decide
      rwa [heq] at hmem
  · intro title description location start «end» uid stamp
    exact ⟨by simp [icsLines], by simp [icsLines]⟩
  · intro dt h1 h2 h3 h4 h5
    exact toICSDate_length dt h1 h2 h3 h4 h5

/-- Witness for `ics_dtstart_dtend_format`, instantiating its general
parts on the claim booking. -/
theorem ics_dtstart_dtend_format_witness :
    "DTSTART:20240603T070000Z" ∈
      icsLines "t" "d" "l" ⟨2024, 5, 3, 7, 0, 0⟩ ⟨2024, 5, 3, 8, 0, 0⟩ "u" ⟨2024, 5, 3, 9, 0, 0⟩ ∧
    (toICSDate ⟨2024, 5, 3, 7, 0, 0⟩).length = (Nat.repr 2024).length + 12 :=
  ⟨(ics_dtstart_dtend_format.2.2.1 "t" "d" "l" "u" ⟨2024, 5, 3, 9, 0, 0⟩).1,
   ics_dtstart_dtend_format.2.2.2.2 ⟨2024, 5, 3, 7, 0, 0⟩ (by decide) (by decide)
     (by decide) (by decide) (by decide)⟩

/-- `replaceChar` distributes over list append. -/
theorem replaceChar_append (target : Char) (repl : List Char) (a b : List Char) :
    replaceChar target repl (a ++ b) = replaceChar target repl a ++ replaceChar target repl b := by
  induction a with
  | nil => rfl
  | cons c cs ih => simp [replaceChar, ih]

/-- The four chained global replacements act per character, as the spec
map `escCharSpec` does: the backslashes introduced by one stage are never
re-escaped by a later stage. -/
theorem escapeChars_eq_flatMap (l : List Char) :
    replaceChar ';' ['\\', ';']
        (replaceChar ',' ['\\', ',']
          (replaceChar '\n' ['\\', 'n']
            (replaceChar '\\' ['\\', '\\'] l))) = l.flatMap escCharSpec := by
  induction l with
  | nil => rfl
  | cons c cs ih =>
    show replaceChar ';' ['\\', ';']
        (replaceChar ',' ['\\', ',']
          (replaceChar '\n' ['\\', 'n']
            ((if c = '\\' then ['\\', '\\'] else [c]) ++
              replaceChar '\\' ['\\', '\\'] cs))) = _
    rw [replaceChar_append, replaceChar_append, replaceChar_append, ih,
      List.flatMap_cons]
    congr 1
    by_cases h1 : c = '\\'
    · subst h1; rfl
    · by_cases h2 : c = '\n'
      · subst h2; rfl
      · by_cases h3 : c = ','
        · subst h3; rfl
        · by_cases h4 : c = ';'
          · subst h4; rfl
          · simp [replaceChar, escCharSpec, h1, h2, h3, h4]

/-- Claim C9: `escapeICS` is exactly the per-character escape map — each
backslash becomes `\\`, each newline `\n`, each comma `\,`, each
semicolon `\;`, and every other character (accented and non-ASCII
included) passes through unchanged. -/
theorem escapeICS_per_char_map :
    (∀ s : String, escapeICS s = String.mk (s.data.flatMap escCharSpec)) ∧
    (∀ c : Char, c ≠ '\\' → c ≠ '\n' → c ≠ ',' → c ≠ ';' →
      escapeICS (String.mk [c]) = String.mk [c]) := by
  constructor
  · intro s
    unfold escapeICS
    rw [escapeChars_eq_flatMap]
  · intro c h1 h2 h3 h4
    unfold escapeICS
    rw [escapeChars_eq_flatMap]
    simp [escCharSpec, h1, h2, h3, h4]

/-- Witness for `escapeICS_per_char_map`: the accented character `á`
passes through unchanged. -/
theorem escapeICS_per_char_map_witness :
    escapeICS (String.mk ['á']) = String.mk ['á'] :=
  escapeICS_per_char_map.2 'á' (by decide) (by decide) (by decide) (by decide)

/-- Witness for `reconciler_last_completion_wins` on a concrete completion
sequence. -/
theorem reconciler_last_completion_wins_witness :
    applyCompletions []
        ([⟨2, [⟨"b2", 1, "B", "", 2, 3⟩]⟩, ⟨3, [⟨"b3", 2, "C", "", 4, 5⟩]⟩] ++
          [⟨1, [⟨"b1", 0, "A", "", 0, 1⟩]⟩]) = [⟨"b1", 0, "A", "", 0, 1⟩] :=
  reconciler_last_completion_wins []
    [⟨2, [⟨"b2", 1, "B", "", 2, 3⟩]⟩, ⟨3, [⟨"b3", 2, "C", "", 4, 5⟩]⟩]
    ⟨1, [⟨"b1", 0, "A", "", 0, 1⟩]⟩

/-- Witness for `overlaps_halfOpen_symm_adjacent` on concrete intervals. -/
theorem overlaps_halfOpen_symm_adjacent_witness :
    overlaps 0 2 1 3 = true :=
  (overlaps_halfOpen_symm_adjacent 0 2 1 3).1.mpr ⟨by decide, by decide⟩

/-- Witness for `failed_fetch_yields_empty_snapshot` on a concrete
snapshot. -/
theorem failed_fetch_yields_empty_snapshot_witness :
    dayLoadApply [⟨"b9", 3, "D", "", 7, 8⟩]
        (fetchBookingsForDay true [⟨"b9", 3, "D", "", 7, 8⟩]) = [] :=
  failed_fetch_yields_empty_snapshot [⟨"b9", 3, "D", "", 7, 8⟩] [⟨"b9", 3, "D", "", 7, 8⟩]
